import Mathlib

/-!
Shallow embedding of the discord-sensei-bot queue core (src/main.rs and
src/constants.rs).  The SQLite table `queue` is modelled as a list of rows in
insertion order; each bot command that touches the store is modelled as a pure
function on that list, returning the updated store together with the reply the
command sends.  Timestamps (`created`, milliseconds since the epoch, inserted
as decimal strings) are modelled as naturals compared numerically.
-/

namespace SenseiBot

/-- One row of the `queue` table: columns `discord_id`, `name`, `note`,
`created` (see `STMT_QUEUE_UP` in constants.rs and `struct QueueEntry` in
main.rs).  `created` is the enqueue timestamp in milliseconds. -/
structure QueueEntry where
  discord_id : String
  name : String
  note : String
  created : Nat
deriving DecidableEq

/-- The `queue` table: rows in insertion (rowid) order. -/
abbrev Store := List QueueEntry

/-- `is_user_queued` in main.rs: runs `STMT_QUEUE_ENTRY_EXIST`
(`SELECT COUNT(discord_id) FROM queue WHERE discord_id = (?)`) and returns
`count > 0`. -/
def is_user_queued (discord_id : String) (db : Store) : Bool :=
  decide (db.countP (fun e => e.discord_id == discord_id) > 0)

/-- Reply sent by the `queue` command: `MSG_QUEUE_ALREADY`, `MSG_ERROR`, or
`"Queued! You are **{n}** on the queue"`. -/
inductive QueueReply
  | alreadyQueued
  | dbError
  | queuedAt (position : Nat)
deriving DecidableEq

/-- The `queue` command in main.rs.  NOTE: the source guard is
`if !is_user_queued(..) { say(MSG_QUEUE_ALREADY); return }` — i.e. it sends
"You have already queued" and returns precisely when the author is NOT in the
table, and runs the `STMT_QUEUE_UP` insert only when the author IS already in
it.  The insert appends one row (an INSERT always affects one row, so the
`rows_affected == 0` / `MSG_ERROR` branch of the source is dead); the reported
position is `STMT_QUEUE_COUNT` (`SELECT COUNT(*) FROM queue`) after the
insert. -/
def queue (author_id author_name note_arg : String) (now : Nat) (db : Store) :
    Store × QueueReply :=
  if !(is_user_queued author_id db) then
    (db, QueueReply.alreadyQueued)
  else
    let db2 := db ++ [⟨author_id, author_name, note_arg, now⟩]
    (db2, QueueReply.queuedAt db2.length)

/-- Reply sent by the `unqueue` command: `MSG_REMOVE_QUEUE_SUCCESS` or
`MSG_NOT_IN_QUEUE`. -/
inductive UnqueueReply
  | removed
  | notInQueue
deriving DecidableEq

/-- The `unqueue` command in main.rs: executes `STMT_UNQUEUE`
(`DELETE FROM queue WHERE discord_id = (?)`) and reports success iff
`rows_affected > 0`. -/
def unqueue (author_id : String) (db : Store) : Store × UnqueueReply :=
  let rows_affected := db.countP (fun e => e.discord_id == author_id)
  let db2 := db.filter (fun e => !(e.discord_id == author_id))
  if rows_affected > 0 then (db2, UnqueueReply.removed)
  else (db2, UnqueueReply.notInQueue)

/-- Reply sent by the `when` command: `MSG_NOT_IN_QUEUE`, the queue number, or
`MSG_ERROR` when the statement yields no row. -/
inductive WhenReply
  | notInQueue
  | position (n : Nat)
  | dbError
deriving DecidableEq

/-- The `when` command in main.rs: guarded by `is_user_queued`, then runs
`STMT_QUEUE_NUMBER` (`SELECT COUNT(*) FROM queue WHERE created <=
(SELECT created FROM queue WHERE discord_id = (?))`).  The scalar subquery
yields the `created` of the first row matching the id (modelled by
`List.find?`). -/
def when (author_id : String) (db : Store) : WhenReply :=
  if !(is_user_queued author_id db) then WhenReply.notInQueue
  else
    match db.find? (fun e => e.discord_id == author_id) with
    | none => WhenReply.dbError
    | some e =>
        WhenReply.position (db.countP (fun x => decide (x.created ≤ e.created)))

/-- The ordering of `STMT_LIST`: `ORDER BY created DESC` — row `a` may come
before row `b` iff `b.created ≤ a.created` (newest first). -/
def createdDesc (a b : QueueEntry) : Prop := b.created ≤ a.created

instance : DecidableRel createdDesc := fun a b => Nat.decLe b.created a.created

instance : IsTotal QueueEntry createdDesc :=
  ⟨fun a b => Nat.le_total b.created a.created⟩

instance : IsTrans QueueEntry createdDesc :=
  ⟨fun _ _ _ h1 h2 => Nat.le_trans h2 h1⟩

/-- The row set produced by `STMT_LIST` in constants.rs:
`SELECT discord_id, name, note, created FROM queue ORDER BY created DESC`. -/
def listAll (db : Store) : List QueueEntry := List.insertionSort createdDesc db

/-- `DISCORD_MSG_LIMIT` in constants.rs. -/
def DISCORD_MSG_LIMIT : Nat := 2000

/-- One rendered line of the `list` command: discord_id, created, name and
note separated by tabs, terminated by a newline (the `buffer.push_str` /
`push('\t')` / `push('\n')` sequence in main.rs). -/
def renderEntry (e : QueueEntry) : String :=
  e.discord_id ++ "\t" ++ toString e.created ++ "\t" ++ e.name ++ "\t"
    ++ e.note ++ "\n"

/-- The accumulation loop of the `list` command: for each entry the rendered
line is appended to `reply` only while `reply.len() + buffer.len() <
DISCORD_MSG_LIMIT`; the first entry failing that test breaks the loop and the
remaining entries are dropped. -/
def buildReply : List QueueEntry → String → String
  | [], reply => reply
  | e :: rest, reply =>
      let buffer := renderEntry e
      if reply.length + buffer.length < DISCORD_MSG_LIMIT then
        buildReply rest (reply ++ buffer)
      else reply

/-- The full block the `list` command sends for a non-empty entry list: the
accumulation loop starts from `String::from("```")` and, after the loop, the
closing delimiter is appended with `reply.push_str("```")` — after the length
check. -/
def listReply (entries : List QueueEntry) : String :=
  buildReply entries "```" ++ "```"

/-- Reply sent by the `remove` command once a valid id was parsed:
`MSG_DISCORD_ID_NOT_EXIST` or `"Removed {id}"`. -/
inductive RemoveReply
  | notFound
  | removedId (id : String)
deriving DecidableEq

/-- The `remove` command in main.rs (after owner check and id parsing):
executes `STMT_REMOVE_ENTRY` (`DELETE FROM queue WHERE discord_id = (?)`),
then reports `MSG_DISCORD_ID_NOT_EXIST` iff `rows_affected == 0`. -/
def remove (discord_id_str : String) (db : Store) : Store × RemoveReply :=
  let rows_affected := db.countP (fun e => e.discord_id == discord_id_str)
  let db2 := db.filter (fun e => !(e.discord_id == discord_id_str))
  if rows_affected == 0 then (db2, RemoveReply.notFound)
  else (db2, RemoveReply.removedId discord_id_str)

/-- A store-mutating call: `queue` (Enqueue), `unqueue` (Withdraw) or
`remove` (AdminRemove). -/
inductive Op
  | enqueueOp (id name note : String) (now : Nat)
  | withdrawOp (id : String)
  | adminRemoveOp (id : String)

/-- Execute one call against the store; the boolean records whether the call
succeeded (inserted a row / deleted at least one row). -/
def applyOp (db : Store) : Op → Store × Bool
  | Op.enqueueOp id nm nt now =>
      match queue id nm nt now db with
      | (db2, QueueReply.queuedAt _) => (db2, true)
      | (db2, _) => (db2, false)
  | Op.withdrawOp id =>
      match unqueue id db with
      | (db2, UnqueueReply.removed) => (db2, true)
      | (db2, _) => (db2, false)
  | Op.adminRemoveOp id =>
      match remove id db with
      | (db2, RemoveReply.removedId _) => (db2, true)
      | (db2, _) => (db2, false)

/-- Run a sequence of calls against the store. -/
def runOps (db : Store) : List Op → Store
  | [] => db
  | op :: rest => runOps (applyOp db op).1 rest

/-- Number of successful Enqueue calls in a sequence run from `db`. -/
def succEnqueues : Store → List Op → Nat
  | _, [] => 0
  | db, op :: rest =>
      (match op, (applyOp db op).2 with
        | Op.enqueueOp _ _ _ _, true => 1
        | _, _ => 0) + succEnqueues (applyOp db op).1 rest

/-- Number of successful Withdraw and AdminRemove calls in a sequence run
from `db`. -/
def succRemovals : Store → List Op → Nat
  | _, [] => 0
  | db, op :: rest =>
      (match op, (applyOp db op).2 with
        | Op.withdrawOp _, true => 1
        | Op.adminRemoveOp _, true => 1
        | _, _ => 0) + succRemovals (applyOp db op).1 rest

/-- Concatenation of the rendered lines of a list of entries. -/
def concatLines : List QueueEntry → String
  | [] => ""
  | e :: rest => renderEntry e ++ concatLines rest

/-- Number of leading entries the accumulation loop of `list` keeps when the
accumulated text already has length `acc`: it keeps taking entries while
appending the next rendered line keeps the length strictly below
`DISCORD_MSG_LIMIT`, and stops at the first entry whose line would make the
length reach or exceed the limit. -/
def fitPrefixLen : List QueueEntry → Nat → Nat
  | [], _ => 0
  | e :: rest, acc =>
      if acc + (renderEntry e).length < DISCORD_MSG_LIMIT then
        fitPrefixLen rest (acc + (renderEntry e).length) + 1
      else 0

/-- An entry whose rendered line is 1995 characters long (its note is 1988
copies of 'a'). -/
def overflowEntry : QueueEntry := ⟨"1", "a", String.mk (List.replicate 1988 'a'), 2⟩

/-- An entry whose rendered line is 1990 characters long. -/
def ce1 : QueueEntry := ⟨"1", "a", String.mk (List.replicate 1983 'x'), 1⟩

/-- An entry whose rendered line is 7 characters long. -/
def ce2 : QueueEntry := ⟨"2", "b", "", 2⟩

/-- An entry whose rendered line is 100 characters long. -/
def ce3 : QueueEntry := ⟨"3", "c", String.mk (List.replicate 93 'y'), 3⟩

/-! ### Helper lemmas -/

theorem is_user_queued_iff (id : String) (db : Store) :
    is_user_queued id db = true ↔ ∃ e ∈ db, e.discord_id = id := by
  unfold is_user_queued
  rw [decide_eq_true_iff, gt_iff_lt, List.countP_pos_iff]
  constructor
  · rintro ⟨e, he, hp⟩; exact ⟨e, he, by simpa using hp⟩
  · rintro ⟨e, he, hp⟩; exact ⟨e, he, by simpa using hp⟩

theorem is_user_queued_eq_false_iff (id : String) (db : Store) :
    is_user_queued id db = false ↔ ∀ e ∈ db, e.discord_id ≠ id := by
  rw [← Bool.not_eq_true, is_user_queued_iff]
  simp

theorem find?_of_mem_nodup (db : Store) (id : String) (e : QueueEntry)
    (hnd : (db.map QueueEntry.discord_id).Nodup) (he : e ∈ db)
    (hid : e.discord_id = id) :
    db.find? (fun x => x.discord_id == id) = some e := by
  induction db with
  | nil => cases he
  | cons a l ih =>
      rw [List.map_cons, List.nodup_cons] at hnd
      rcases List.mem_cons.mp he with rfl | hmem
      · exact List.find?_cons_of_pos l (by simpa using hid)
      · have hne : ¬ ((a.discord_id == id) = true) := by
          intro hcontra
          apply hnd.1
          rw [show a.discord_id = id from by simpa using hcontra, ← hid]
          exact List.mem_map_of_mem QueueEntry.discord_id hmem
        rw [List.find?_cons_of_neg l (by simpa using hne)]
        exact ih hnd.2 hmem

theorem when_eq_notInQueue (db : Store) (id : String)
    (habs : ∀ e ∈ db, e.discord_id ≠ id) :
    when id db = WhenReply.notInQueue := by
  unfold when
  rw [(is_user_queued_eq_false_iff id db).mpr habs]
  rfl

theorem when_eq_position (db : Store) (id : String) (e : QueueEntry)
    (he : e ∈ db) (hid : e.discord_id = id)
    (hnd : (db.map QueueEntry.discord_id).Nodup) :
    when id db
      = WhenReply.position (db.countP (fun x => decide (x.created ≤ e.created))) := by
  unfold when
  rw [(is_user_queued_iff id db).mpr ⟨e, he, hid⟩,
    find?_of_mem_nodup db id e hnd he hid]
  rfl

theorem countP_lt_of_witness (p q : QueueEntry → Bool) (l : List QueueEntry)
    (a : QueueEntry) (ha : a ∈ l) (hqa : q a = true) (hpa : p a = false)
    (himp : ∀ x ∈ l, p x = true → q x = true) :
    l.countP p < l.countP q := by
  induction l with
  | nil => cases ha
  | cons b t ih =>
      rw [List.countP_cons, List.countP_cons]
      rcases List.mem_cons.mp ha with rfl | hmem
      · have hmono : t.countP p ≤ t.countP q :=
          List.countP_mono_left (fun x hx => himp x (List.mem_cons_of_mem _ hx))
        rw [hqa, hpa]
        simp only [show (true = true) = True from by simp,
          show (false = true) = False from by simp, if_true, if_false]
        omega
      · have h1 : t.countP p < t.countP q :=
          ih hmem (fun x hx => himp x (List.mem_cons_of_mem _ hx))
        have h2 : (if p b then 1 else 0) ≤ (if q b then 1 else 0) := by
          by_cases hpb : p b = true
          · rw [hpb, himp b (List.mem_cons_self b t) hpb]
          · simp [hpb]
        omega

theorem position_count_lt (db : Store) (ea eb : QueueEntry)
    (hmb : eb ∈ db) (hlt : ea.created < eb.created) :
    db.countP (fun x => decide (x.created ≤ ea.created))
      < db.countP (fun x => decide (x.created ≤ eb.created)) := by
  apply countP_lt_of_witness _ _ db eb hmb
  · simp
  · simpa using Nat.not_le.mpr hlt
  · intro x _ hx
    simp only [decide_eq_true_iff] at hx ⊢
    omega

theorem countP_id_pos (db : Store) (id : String)
    (h : ∃ e ∈ db, e.discord_id = id) :
    0 < db.countP (fun e => e.discord_id == id) := by
  rcases h with ⟨e, he, hid⟩
  exact List.countP_pos_iff.mpr ⟨e, he, by simpa using hid⟩

theorem countP_id_zero (db : Store) (id : String)
    (h : ∀ e ∈ db, e.discord_id ≠ id) :
    db.countP (fun e => e.discord_id == id) = 0 :=
  List.countP_eq_zero.mpr (fun e he => by simpa using h e he)

theorem filter_id_all (db : Store) (id : String)
    (h : ∀ e ∈ db, e.discord_id ≠ id) :
    db.filter (fun e => !(e.discord_id == id)) = db :=
  List.filter_eq_self.mpr (fun e he => by simpa using h e he)

theorem mem_filter_id_ne (db : Store) (id : String) (e : QueueEntry)
    (he : e ∈ db.filter (fun x => !(x.discord_id == id))) :
    e.discord_id ≠ id := by
  have h := (List.mem_filter.mp he).2
  simpa using h

theorem countP_id_eq_one (db : Store) (x : String)
    (hnd : (db.map QueueEntry.discord_id).Nodup)
    (hex : ∃ e ∈ db, e.discord_id = x) :
    db.countP (fun e => e.discord_id == x) = 1 := by
  rcases hex with ⟨e, he, hid⟩
  have hmem : x ∈ db.map QueueEntry.discord_id := by
    rw [← hid]
    exact List.mem_map_of_mem QueueEntry.discord_id he
  have h1 : (db.map QueueEntry.discord_id).count x = 1 :=
    List.count_eq_one_of_mem hnd hmem
  rw [List.count_eq_countP, List.countP_map] at h1
  exact h1

theorem length_split_id (db : Store) (x : String) :
    db.length = db.countP (fun e => e.discord_id == x)
      + db.countP (fun e => !(e.discord_id == x)) := by
  have h := List.length_eq_countP_add_countP (l := db) (fun e => e.discord_id == x)
  simpa using h

theorem renderEntry_length (e : QueueEntry) :
    (renderEntry e).length =
      e.discord_id.length + (toString e.created).length + e.name.length
        + e.note.length + 4 := by
  unfold renderEntry
  rw [String.length_append, String.length_append, String.length_append,
    String.length_append, String.length_append, String.length_append,
    String.length_append]
  simp only [show ("\t").length = 1 from rfl, show ("\n").length = 1 from rfl]
  omega

theorem overflow_line_length : (renderEntry overflowEntry).length = 1995 := by
  rw [renderEntry_length]
  have h1 : overflowEntry.note.length = 1988 := by
    show (List.replicate 1988 'a').length = 1988
    exact List.length_replicate 1988 'a'
  rw [h1]
  decide

theorem ce1_line_length : (renderEntry ce1).length = 1990 := by
  rw [renderEntry_length]
  have h1 : ce1.note.length = 1983 := by
    show (List.replicate 1983 'x').length = 1983
    exact List.length_replicate 1983 'x'
  rw [h1]
  decide

theorem ce3_line_length : (renderEntry ce3).length = 100 := by
  rw [renderEntry_length]
  have h1 : ce3.note.length = 93 := by
    show (List.replicate 93 'y').length = 93
    exact List.length_replicate 93 'y'
  rw [h1]
  decide

theorem buildReply_eq (entries : List QueueEntry) :
    ∀ reply : String,
      buildReply entries reply
        = reply ++ concatLines (entries.take (fitPrefixLen entries reply.length)) := by
  induction entries with
  | nil =>
      intro reply
      simp [buildReply, fitPrefixLen, concatLines]
  | cons e rest ih =>
      intro reply
      by_cases h : reply.length + (renderEntry e).length < DISCORD_MSG_LIMIT
      · simp only [buildReply, fitPrefixLen, if_pos h]
        rw [ih (reply ++ renderEntry e), String.length_append]
        simp [concatLines, String.append_assoc]
      · simp only [buildReply, fitPrefixLen, if_neg h]
        simp [concatLines]

theorem applyOp_empty (op : Op) : applyOp [] op = ([], false) := by
  cases op <;> rfl

theorem run_from_empty (ops : List Op) :
    runOps [] ops = [] ∧ succEnqueues [] ops = 0 ∧ succRemovals [] ops = 0 := by
  induction ops with
  | nil => exact ⟨rfl, rfl, rfl⟩
  | cons op rest ih =>
      refine ⟨?_, ?_, ?_⟩
      · show runOps (applyOp [] op).1 rest = []
        rw [applyOp_empty]
        exact ih.1
      · show (match op, (applyOp [] op).2 with
            | Op.enqueueOp _ _ _ _, true => 1
            | _, _ => 0) + succEnqueues (applyOp [] op).1 rest = 0
        rw [applyOp_empty]
        cases op <;> simpa using ih.2.1
      · show (match op, (applyOp [] op).2 with
            | Op.withdrawOp _, true => 1
            | Op.adminRemoveOp _, true => 1
            | _, _ => 0) + succRemovals (applyOp [] op).1 rest = 0
        rw [applyOp_empty]
        cases op <;> simpa using ih.2.2

/-! ### Claims -/

/-- C1: the claim says Enqueue(R) fails with AlreadyQueued exactly when an
entry keyed by R exists and otherwise inserts one entry, returning the count
after insertion.  The code does the opposite: on an empty store (no entry for
"1" exists) `queue` replies AlreadyQueued and inserts nothing, and on a store
that already holds an entry for "1" it inserts a second entry for "1". -/
theorem c1_enqueue_guard_inverted :
    queue "1" "alice" "" 100 [] = ([], QueueReply.alreadyQueued)
      ∧ (∀ e ∈ ([] : Store), e.discord_id ≠ "1")
      ∧ (queue "1" "alice" "hi" 200 [⟨"1", "alice", "", 100⟩]).1
          = [⟨"1", "alice", "", 100⟩, ⟨"1", "alice", "hi", 200⟩] := by decide

/-- C2 counterexample: on a two-entry store the `list` query returns the
newest entry first, so the result is not ordered by ascending `created` as
the claim states. -/
theorem c2_not_oldest_first :
    listAll [⟨"1", "a", "", 1⟩, ⟨"2", "b", "", 2⟩]
        = [⟨"2", "b", "", 2⟩, ⟨"1", "a", "", 1⟩]
      ∧ ¬ List.Pairwise (fun x y : QueueEntry => x.created ≤ y.created)
          (listAll [⟨"1", "a", "", 1⟩, ⟨"2", "b", "", 2⟩]) := by decide

/-- C2 (amended): ListAll returns the full sequence of rows (a permutation of
the store) ordered by DESCENDING `created` (newest first), without mutating
the store, and the empty store yields the empty sequence rather than an
error. -/
theorem c2_listAll_sorted_descending (db : Store) :
    (listAll db).Perm db
      ∧ List.Pairwise createdDesc (listAll db)
      ∧ listAll ([] : Store) = [] :=
  ⟨List.perm_insertionSort createdDesc db,
   List.sorted_insertionSort createdDesc db,
   rfl⟩

/-- C3: PositionOf (`when`) replies NotQueued when no entry for the requester
exists, and otherwise (for the requester's entry `e`, ids being unique keys)
replies with the count of entries whose `created` is ≤ `e.created`. -/
theorem c3_positionOf (db : Store) (id : String) :
    ((∀ e ∈ db, e.discord_id ≠ id) → when id db = WhenReply.notInQueue)
      ∧ (∀ e ∈ db, e.discord_id = id →
          (db.map QueueEntry.discord_id).Nodup →
          when id db
            = WhenReply.position (db.countP (fun x => decide (x.created ≤ e.created)))) :=
  ⟨fun habs => when_eq_notInQueue db id habs,
   fun e he hid hnd => when_eq_position db id e he hid hnd⟩

/-- C3 witness: on concrete stores, an absent requester gets NotQueued and a
present requester gets the count of entries at or before its timestamp. -/
theorem c3_positionOf_witness :
    when "2" [⟨"1", "a", "", 5⟩] = WhenReply.notInQueue
      ∧ when "1" [⟨"1", "a", "", 5⟩, ⟨"2", "b", "", 7⟩] = WhenReply.position 1 := by
  constructor
  · exact (c3_positionOf [⟨"1", "a", "", 5⟩] "2").1 (by decide)
  · exact ((c3_positionOf [⟨"1", "a", "", 5⟩, ⟨"2", "b", "", 7⟩] "1").2
      ⟨"1", "a", "", 5⟩ (by decide) rfl (by decide)).trans (by decide)

/-- C4 counterexample: two distinct queued requesters whose entries carry the
same `created` timestamp report the SAME position (both get rank 2), so
PositionOf is not injective and there is no tie-break. -/
theorem c4_tied_timestamps_same_position :
    when "1" [⟨"1", "a", "", 5⟩, ⟨"2", "b", "", 5⟩]
        = when "2" [⟨"1", "a", "", 5⟩, ⟨"2", "b", "", 5⟩]
      ∧ when "1" [⟨"1", "a", "", 5⟩, ⟨"2", "b", "", 5⟩] = WhenReply.position 2 := by decide

/-- C4 (amended): PositionOf is injective over queued requesters only when
the `created` timestamps in the store are pairwise distinct (ids being unique
keys); at identical timestamps two requesters report the same position. -/
theorem c4_position_injective_distinct_created (db : Store) (ea eb : QueueEntry)
    (hma : ea ∈ db) (hmb : eb ∈ db)
    (hids : (db.map QueueEntry.discord_id).Nodup)
    (hcr : (db.map QueueEntry.created).Nodup)
    (hne : ea.discord_id ≠ eb.discord_id) :
    when ea.discord_id db ≠ when eb.discord_id db := by
  rw [when_eq_position db ea.discord_id ea hma rfl hids,
    when_eq_position db eb.discord_id eb hmb rfl hids]
  have hne2 : ea ≠ eb := fun h => hne (by rw [h])
  have hcne : ea.created ≠ eb.created := fun h =>
    hne2 (List.inj_on_of_nodup_map hcr hma hmb h)
  intro hcontra
  have hcount := WhenReply.position.inj hcontra
  rcases Nat.lt_or_ge ea.created eb.created with hlt | hge
  · exact absurd hcount (Nat.ne_of_lt (position_count_lt db ea eb hmb hlt))
  · have hgt : eb.created < ea.created := Nat.lt_of_le_of_ne hge (fun h => hcne h.symm)
    exact absurd hcount.symm (Nat.ne_of_lt (position_count_lt db eb ea hma hgt))

/-- C4 witness: with distinct timestamps, two queued requesters report
distinct positions. -/
theorem c4_position_injective_witness :
    when "1" [⟨"1", "a", "", 5⟩, ⟨"2", "b", "", 7⟩]
      ≠ when "2" [⟨"1", "a", "", 5⟩, ⟨"2", "b", "", 7⟩] :=
  c4_position_injective_distinct_created [⟨"1", "a", "", 5⟩, ⟨"2", "b", "", 7⟩]
    ⟨"1", "a", "", 5⟩ ⟨"2", "b", "", 7⟩ (by decide) (by decide) (by decide)
    (by decide) (by decide)

/-- C5: Withdraw (`unqueue`) on a present requester deletes that requester's
rows (exactly the delete `STMT_UNQUEUE` performs) and reports success, and a
repeated Withdraw then changes nothing and reports NotQueued; Withdraw on an
absent requester leaves the store unchanged and reports NotQueued. -/
theorem c5_withdraw (db : Store) (id : String) :
    ((∃ e ∈ db, e.discord_id = id) →
        unqueue id db
            = (db.filter (fun e => !(e.discord_id == id)), UnqueueReply.removed)
          ∧ unqueue id (unqueue id db).1
              = ((unqueue id db).1, UnqueueReply.notInQueue))
      ∧ ((∀ e ∈ db, e.discord_id ≠ id) →
          unqueue id db = (db, UnqueueReply.notInQueue)) := by
  constructor
  · intro hex
    have hfst : unqueue id db
        = (db.filter (fun e => !(e.discord_id == id)), UnqueueReply.removed) := by
      unfold unqueue
      rw [if_pos (countP_id_pos db id hex)]
    refine ⟨hfst, ?_⟩
    rw [hfst]
    unfold unqueue
    rw [if_neg, filter_id_all _ id (fun e he => mem_filter_id_ne db id e he)]
    rw [countP_id_zero _ id (fun e he => mem_filter_id_ne db id e he)]
    exact Nat.lt_irrefl 0
  · intro habs
    unfold unqueue
    rw [if_neg, filter_id_all db id habs]
    rw [countP_id_zero db id habs]
    exact Nat.lt_irrefl 0

/-- C5 witness: Withdraw on the only entry removes it and succeeds, a second
Withdraw reports NotQueued without change, and Withdraw on an absent
requester reports NotQueued without change. -/
theorem c5_withdraw_witness :
    (unqueue "1" [⟨"1", "a", "", 5⟩] = ([], UnqueueReply.removed)
      ∧ unqueue "1" (unqueue "1" [⟨"1", "a", "", 5⟩]).1
          = ((unqueue "1" [⟨"1", "a", "", 5⟩]).1, UnqueueReply.notInQueue))
      ∧ unqueue "2" [⟨"1", "a", "", 5⟩] = ([⟨"1", "a", "", 5⟩], UnqueueReply.notInQueue) :=
  ⟨(c5_withdraw [⟨"1", "a", "", 5⟩] "1").1 (by decide),
   (c5_withdraw [⟨"1", "a", "", 5⟩] "2").2 (by decide)⟩

/-- C6: AdminRemove (`remove`) on an absent id reports NotFound and leaves the
store completely unchanged; on a present id it removes exactly the rows keyed
by that id (the filter keeps every other row, in order) and, ids being unique
keys, removes exactly one row while every differently-keyed row remains. -/
theorem c6_admin_remove (db : Store) (x : String) :
    ((∀ e ∈ db, e.discord_id ≠ x) → remove x db = (db, RemoveReply.notFound))
      ∧ ((∃ e ∈ db, e.discord_id = x) →
          remove x db
            = (db.filter (fun e => !(e.discord_id == x)), RemoveReply.removedId x))
      ∧ ((db.map QueueEntry.discord_id).Nodup → (∃ e ∈ db, e.discord_id = x) →
          db.length = (remove x db).1.length + 1
            ∧ ∀ e ∈ db, e.discord_id ≠ x → e ∈ (remove x db).1) := by
  refine ⟨?_, ?_, ?_⟩
  · intro habs
    unfold remove
    rw [if_pos, filter_id_all db x habs]
    rw [countP_id_zero db x habs]
    rfl
  · intro hex
    unfold remove
    rw [if_neg]
    intro hcontra
    have h0 : db.countP (fun e => e.discord_id == x) = 0 := by simpa using hcontra
    exact Nat.lt_irrefl 0 (h0 ▸ countP_id_pos db x hex)
  · intro hnd hex
    have hfst : (remove x db).1 = db.filter (fun e => !(e.discord_id == x)) := by
      unfold remove
      rw [if_neg]
      intro hcontra
      have h0 : db.countP (fun e => e.discord_id == x) = 0 := by simpa using hcontra
      exact Nat.lt_irrefl 0 (h0 ▸ countP_id_pos db x hex)
    constructor
    · rw [hfst, ← List.countP_eq_length_filter,
        length_split_id db x, countP_id_eq_one db x hnd hex]
      omega
    · intro e he hne
      rw [hfst]
      exact List.mem_filter.mpr ⟨he, by simpa using hne⟩

/-- C6 witness: AdminRemove of an absent id leaves the concrete store
unchanged with NotFound; AdminRemove of a present id removes exactly that
entry, the store shrinks by one. -/
theorem c6_admin_remove_witness :
    remove "9" [⟨"1", "a", "", 5⟩] = ([⟨"1", "a", "", 5⟩], RemoveReply.notFound)
      ∧ remove "1" [⟨"1", "a", "", 5⟩, ⟨"2", "b", "", 7⟩]
          = ([⟨"2", "b", "", 7⟩], RemoveReply.removedId "1")
      ∧ ([⟨"1", "a", "", 5⟩, ⟨"2", "b", "", 7⟩] : Store).length
          = (remove "1" [⟨"1", "a", "", 5⟩, ⟨"2", "b", "", 7⟩]).1.length + 1 :=
  ⟨(c6_admin_remove [⟨"1", "a", "", 5⟩] "9").1 (by decide),
   (c6_admin_remove [⟨"1", "a", "", 5⟩, ⟨"2", "b", "", 7⟩] "1").2.1 (by decide),
   ((c6_admin_remove [⟨"1", "a", "", 5⟩, ⟨"2", "b", "", 7⟩] "1").2.2 (by decide)
      (by decide)).1⟩

/-- C7: the claim says every block the formatter produces, delimiters
included, is no longer than DISCORD_MSG_LIMIT.  The code checks
`reply.len() + buffer.len() < DISCORD_MSG_LIMIT` before appending each line
but appends the closing "```" AFTER the loop, unchecked: on a single entry
whose rendered line is 1995 characters the block is 2001 characters long,
one more than the limit. -/
theorem c7_block_exceeds_limit :
    (listReply [overflowEntry]).length = DISCORD_MSG_LIMIT + 1 := by
  have hline : (renderEntry overflowEntry).length = 1995 := overflow_line_length
  have hcond : ("```".length + (renderEntry overflowEntry).length < DISCORD_MSG_LIMIT) := by
    rw [hline]; decide
  simp only [listReply, buildReply, hcond, if_pos]
  rw [String.length_append, String.length_append, hline]
  decide

/-- C8 counterexample: the rendered lines of `ce1`, `ce2`, `ce3` total 2097
characters (exceeding the 2000 limit, so the claim applies), and appending
`ce2`'s 7-character line to the 1993-character accumulated block would make
exactly 2000 — which does NOT exceed the limit — yet the code stops there:
the block contains only `ce1`'s line.  Accumulation stops at the first entry
whose line would make the block REACH the limit, not exceed it. -/
theorem c8_stops_at_reaching_limit :
    (renderEntry ce1).length + (renderEntry ce2).length + (renderEntry ce3).length
        > DISCORD_MSG_LIMIT
      ∧ ("```" ++ renderEntry ce1 ++ renderEntry ce2).length ≤ DISCORD_MSG_LIMIT
      ∧ listReply [ce1, ce2, ce3] = "```" ++ renderEntry ce1 ++ "```" := by
  have h2 : (renderEntry ce2).length = 7 := by decide
  refine ⟨?_, ?_, ?_⟩
  · rw [ce1_line_length, h2, ce3_line_length]; decide
  · rw [String.length_append, String.length_append, ce1_line_length, h2]; decide
  · have hc1 : ("```".length + (renderEntry ce1).length < DISCORD_MSG_LIMIT) := by
      rw [ce1_line_length]; decide
    have hc2 : ¬ (("```" ++ renderEntry ce1).length + (renderEntry ce2).length
        < DISCORD_MSG_LIMIT) := by
      rw [String.length_append, ce1_line_length, h2]; decide
    simp only [listReply, buildReply, if_pos hc1, if_neg hc2]

/-- C8 (amended): for every list of entries the block is the two delimiters
around exactly the concatenated rendered lines of a leading prefix of the
entries — never a partially rendered line; accumulation stops at the first
entry whose line would make the accumulated text reach or exceed the limit
(`fitPrefixLen`), and all entries after that point are dropped. -/
theorem c8_truncation (entries : List QueueEntry) :
    listReply entries
      = "```" ++ concatLines (entries.take (fitPrefixLen entries 3)) ++ "```" := by
  rw [listReply, buildReply_eq]
  rfl

/-- C9: for every sequence of Enqueue/Withdraw/AdminRemove calls run from the
empty store, the number of entries ListAll then returns equals the number of
successful Enqueue calls minus the number of successful Withdraw and
AdminRemove calls.  (On this code the equality is degenerate: because the
`queue` guard is inverted — see C1 — no Enqueue from an empty store ever
succeeds, the store stays empty, and all three quantities are 0.) -/
theorem c9_counting (ops : List Op) :
    ((listAll (runOps [] ops)).length : Int)
      = (succEnqueues [] ops : Int) - (succRemovals [] ops : Int) := by
  rw [(run_from_empty ops).1, (run_from_empty ops).2.1, (run_from_empty ops).2.2]
  rfl

/-- C10: Withdraw (`unqueue`, running `STMT_UNQUEUE`) and AdminRemove
(`remove`, running `STMT_REMOVE_ENTRY`) perform the identical store mutation
— both statements are `DELETE FROM queue WHERE discord_id = (?)` — so for
every store and id the resulting stores are equal; the two commands differ
only in gating and in the rendered message. -/
theorem c10_withdraw_remove_same_mutation (db : Store) (id : String) :
    (unqueue id db).1 = (remove id db).1 := by
  simp only [unqueue, remove]
  split <;> split <;> rfl

end SenseiBot
